import Mathlib

/-!
# Verification of the OpenSSL cross-mobile build orchestrator

Shallow embedding of `src/index.ts` (an OpenSSL cross-compilation driver for
Android / iPhoneOS / iPhoneSimulator written for the Bun runtime).

Modelling conventions:

* Filesystem paths are lists of segments (`Path`); the helper `pathToString`
  renders them the way the TypeScript template literals do.
* The effectful script is embedded as a state-and-error monad `M`:
  every external command invocation (`$`...`` in Bun) is recorded in an
  execution trace, and a small filesystem model (set of existing paths plus a
  map recording which install tree the dist `include/` directory was last
  copied from) is threaded through.
* External collaborators (tar, Configure, make, lipo, xcode-select, the
  directory listing of the NDK prebuilt-toolchains folder, and the set of
  files a `make install` drops under an install prefix) are oracles in `Env`.
* `process.on("exit")` cleanup-hook registration, logging, and the
  environment-variable mutations (`ANDROID_NDK_HOME`, `ANDROID_API`, `PATH`)
  are not observable by any claim and are not modelled; `process.chdir` is
  modelled as an update of the tracked working directory.
* Bun shell semantics: an interpolated string is passed to the command as a
  single (escaped) token, while an interpolated array expands to one token
  per element.  This matters for the `lipo` invocations and is documented in
  the source itself (comment in `buildForIosIphonesim`).
-/

namespace OpensslCross

/-- A filesystem path, as a list of segments from the root. -/
abbrev Path := List String

/-- Render a path the way the TypeScript string interpolation does. -/
def pathToString (p : Path) : String :=
  "/" ++ String.intercalate "/" p

/-- Accumulator for `jsSplit`. -/
def jsSplitAux (sep : Char) : List Char → List Char → List String
  | [], acc => [String.mk acc.reverse]
  | ch :: rest, acc =>
    if ch == sep then String.mk acc.reverse :: jsSplitAux sep rest []
    else jsSplitAux sep rest (ch :: acc)

/-- JavaScript's `String.prototype.split` with a one-character separator
(structurally recursive, so that proofs can evaluate it): `"".split(sep)`
is `[""]`, and separators delimit possibly-empty fields. -/
def jsSplit (sep : Char) (s : String) : List String := jsSplitAux sep s.data []

/-- JavaScript whitespace (the characters relevant to `ls` output). -/
def isWsChar (c : Char) : Bool := c == ' ' || c == '\n' || c == '\t' || c == '\r'

/-- JavaScript's `String.prototype.trim` (structurally recursive model). -/
def jsTrim (s : String) : String :=
  String.mk (((s.data.dropWhile isWsChar).reverse.dropWhile isWsChar).reverse)

/-- Whether a path string is absolute (`p.startsWith "/"`). -/
def startsWithSlash (s : String) : Bool :=
  match s.data with
  | c :: _ => c == '/'
  | [] => false

/-- The `--target` selector of the CLI. -/
inductive Target where
  | android
  | iphonesim
  | iphoneos
  | all
deriving DecidableEq, Repr

/-- The raw object produced by commander's `program.opts()`, as consumed by
`createOptions`.  `opensslVersion` is `Option String` so that both an absent
field and the empty string are "falsy" as in JavaScript; `distPath` is typed
as a string because commander always supplies its default. -/
structure OptionsInput where
  opensslVersion : Option String
  target : Target
  clean : Bool
  distPath : String
  androidAPI : String
  androidArchs : String
  iphoneosArchs : String
  iphonesimArchs : String
deriving DecidableEq, Repr

/-- The `Options` record returned by `createOptions` (type `Options` in the
source). `distPath` is already resolved to an absolute path. -/
structure Options where
  opensslVersion : String
  target : Target
  clean : Bool
  distPath : Path
  androidAPI : String
  androidArchs : String
  iphoneosArchs : String
  iphonesimArchs : String
deriving DecidableEq, Repr

/-- Model of Node's `path.resolve(p)` against a current working directory:
absolute inputs are split into segments, relative inputs are appended to the
working directory.  (`..` collapsing is irrelevant to every claim.) -/
def resolvePath (cwd : Path) (p : String) : Path :=
  if startsWithSlash p then (jsSplit '/' p).filter (fun seg => seg ≠ "")
  else cwd ++ (jsSplit '/' p).filter (fun seg => seg ≠ "")

/-- JavaScript falsiness of an optional string field: absent or empty. -/
def isFalsyStr : Option String → Bool
  | none => true
  | some s => s == ""

/-- External commands invoked by the script (the Bun `$` calls plus `fetch`).
`lipo` carries the exact argument tokens the shell passes before
`-create -output`. -/
inductive Cmd where
  | rmRf (p : Path)
  | mkdirP (p : Path)
  | lsDir (p : Path)
  | tarExtract (tar : Path) (dest : Path)
  | fetch (url : String)
  | configure (config : String) (flags : List String) (pfx : Path)
  | make (args : List String)
  | cp (src : Path) (dst : Path)
  | cpA (src : Path) (dst : Path)
  | lipo (inputs : List String) (output : Path)
  | rm (p : Path)
  | xcodeSelectPrintPath
deriving DecidableEq, Repr

/-- Errors thrown by the script (`new Error(...)` sites, plus failures of
external commands, which Bun's `$` turns into exceptions). -/
inductive BuildError where
  | opensslVersionNotSpecified
  | invalidAndroidArch (arch : String)
  | ndkHomeUnset
  | ndkHomeInvalid
  | ambiguousToolchain
  | untarFailed (inner : BuildError)
  | extractFailed
  | iosArchsNotSpecified
  | iosSimArchsNotSpecified
  | xcodePathError
  | libNotFound (lib : String)
  | cmdFailed (c : Cmd)
  | wrap (ctx : String) (inner : BuildError)
deriving DecidableEq, Repr

/-- Oracles for the external collaborators. -/
structure Env where
  /-- `process.env.ANDROID_NDK_HOME`, already split into path segments. -/
  ndkHome : Option Path
  /-- stdout of `ls p` (text, before trimming). -/
  lsOutput : Path → String
  /-- whether `xcode-select -print-path` exits zero. -/
  xcodeOk : Bool
  /-- whether `tar xf` exits zero. -/
  tarOk : Bool
  /-- whether `./Configure config --prefix=pfx` exits zero. -/
  configureOk : String → Path → Bool
  /-- whether `make args` exits zero. -/
  makeOk : List String → Bool
  /-- whether `lipo` exits zero. -/
  lipoOk : Bool
  /-- relative paths that a successful `make install_sw` creates under an
  install prefix. -/
  installOutputs : Path → List Path

/-- How `buildForAndroid` parses the `ls` output of the NDK
prebuilt-toolchains directory into host-directory candidates:
`output.trim().split("\n")`. -/
def toolchainHostDirs (env : Env) (toolchainPath : Path) : List String :=
  jsSplit '\n' (jsTrim (env.lsOutput toolchainPath))

/-- Execution state: the modelled filesystem (set of existing paths), the
provenance of each dist `include/` directory (which install tree it was last
copied from), the trace of external commands run so far, and the working
directory. -/
structure St where
  fs : List Path
  includes : List (Path × Path)
  trace : List Cmd
  cwd : Path
deriving Repr

/-- The script monad: state plus exceptions, with state surviving a throw
(commands already executed stay executed). -/
def M (α : Type) : Type := St → Except BuildError α × St

/-- Bind of `M`. -/
def mBind (x : M α) (f : α → M β) : M β := fun s =>
  match x s with
  | (.ok a, s') => f a s'
  | (.error e, s') => (.error e, s')

instance : Monad M where
  pure a := fun s => (.ok a, s)
  bind := mBind

/-- Throw (model of `throw new Error(...)`). -/
def throwM (e : BuildError) : M α := fun s => (.error e, s)

/-- Model of `try ... catch (error) { ... }`. -/
def tryCatchM (x : M α) (h : BuildError → M α) : M α := fun s =>
  match x s with
  | (.ok a, s') => (.ok a, s')
  | (.error e, s') => h e s'

/-- Lift a pure `Except` computation (state untouched). -/
def liftExcept (x : Except BuildError α) : M α := fun s => (x, s)

/-- Segment-wise path equality (structurally recursive so that proofs can
evaluate it even when single segments stay symbolic). -/
def pathBeq : Path → Path → Bool
  | [], [] => true
  | a :: as, b :: bs => a == b && pathBeq as bs
  | _, _ => false

/-- Segment-wise path prefix test. -/
def pathIsPrefixOf : Path → Path → Bool
  | [], _ => true
  | _ :: _, [] => false
  | a :: as, b :: bs => a == b && pathIsPrefixOf as bs

/-- `pfx` is a (non-strict) path prefix of `p`. -/
def underPath (pfx p : Path) : Bool := pathIsPrefixOf pfx p

/-- Remove a path and everything below it (model of `rm -rf`). -/
def fsRemove (pfx : Path) (fs : List Path) : List Path :=
  fs.filter (fun p => !(underPath pfx p))

/-- Membership in the modelled filesystem (model of `fs.existsSync`). -/
def fsContains (fs : List Path) (p : Path) : Bool :=
  fs.any (fun q => pathBeq q p)

/-- Look up which source tree a dist `include/` directory was last copied
from. -/
def lookupIncl : List (Path × Path) → Path → Option Path
  | [], _ => none
  | (k, v) :: rest, key => if pathBeq k key then some v else lookupIncl rest key

/-- `fs.existsSync` as a monadic query. -/
def existsSync (p : Path) : M Bool := fun s => (.ok (fsContains s.fs p), s)

/-- `rm -rf p`: always succeeds; removes the subtree and any include
provenance under it. -/
def runRmRf (p : Path) : M Unit := fun s =>
  (.ok (), { s with
    trace := s.trace ++ [.rmRf p],
    fs := fsRemove p s.fs,
    includes := s.includes.filter (fun kv => !(underPath p kv.1)) })

/-- `mkdir -p p`: always succeeds. -/
def runMkdirP (p : Path) : M Unit := fun s =>
  (.ok (), { s with trace := s.trace ++ [.mkdirP p], fs := p :: s.fs })

/-- `tar xf tar -C dest`: success per oracle. -/
def runTar (env : Env) (tar dest : Path) : M Unit := fun s =>
  ((if env.tarOk then .ok () else .error (.cmdFailed (.tarExtract tar dest))),
   { s with trace := s.trace ++ [.tarExtract tar dest] })

/-- `./Configure config flags --prefix=pfx`: success per oracle. -/
def runConfigure (env : Env) (config : String) (flags : List String)
    (pfx : Path) : M Unit := fun s =>
  ((if env.configureOk config pfx then .ok ()
    else .error (.cmdFailed (.configure config flags pfx))),
   { s with trace := s.trace ++ [.configure config flags pfx] })

/-- `make args`: success per oracle. -/
def runMake (env : Env) (args : List String) : M Unit := fun s =>
  ((if env.makeOk args then .ok () else .error (.cmdFailed (.make args))),
   { s with trace := s.trace ++ [.make args] })

/-- Files appearing under the install prefix after a successful install. -/
def addInstallOutputs (env : Env) (pfx : Path) : M Unit := fun s =>
  (.ok (), { s with
    fs := (env.installOutputs pfx).map (fun rel => pfx ++ rel) ++ s.fs })

/-- The install pair: `make -j8 install_sw` then `make -j8 install_ssldirs`;
on success the oracle-given files exist under the prefix. -/
def runInstall (env : Env) (pfx : Path) : M Unit := do
  runMake env ["-j8", "install_sw"]
  addInstallOutputs env pfx
  runMake env ["-j8", "install_ssldirs"]

/-- `cp src dst` for a file whose existence was just checked. -/
def runCp (src dst : Path) : M Unit := fun s =>
  (.ok (), { s with trace := s.trace ++ [.cp src dst], fs := dst :: s.fs })

/-- `cp -a src dst` for a file whose existence was just checked. -/
def runCpA (src dst : Path) : M Unit := fun s =>
  (.ok (), { s with trace := s.trace ++ [.cpA src dst], fs := dst :: s.fs })

/-- `cp -a installPath/include distDir`: copies the headers directory into
the dist directory (creating `distDir/include`) and records its provenance;
fails if the source directory does not exist. -/
def runCpAInclude (srcInclude distDir : Path) : M Unit := fun s =>
  if fsContains s.fs srcInclude then
    (.ok (), { s with
      trace := s.trace ++ [.cpA srcInclude distDir],
      fs := (distDir ++ ["include"]) :: s.fs,
      includes := (distDir ++ ["include"], srcInclude) ::
        s.includes.filter (fun kv => !(pathBeq kv.1 (distDir ++ ["include"]))) })
  else
    (.error (.cmdFailed (.cpA srcInclude distDir)),
     { s with trace := s.trace ++ [.cpA srcInclude distDir] })

/-- `lipo inputs -create -output out`: success per oracle. -/
def runLipo (env : Env) (inputs : List String) (out : Path) : M Unit := fun s =>
  ((if env.lipoOk then .ok () else .error (.cmdFailed (.lipo inputs out))),
   { s with trace := s.trace ++ [.lipo inputs out],
            fs := if env.lipoOk then out :: s.fs else s.fs })

/-- `rm p` of a staged file (which exists by construction at every call
site). -/
def runRm (p : Path) : M Unit := fun s =>
  (.ok (), { s with trace := s.trace ++ [.rm p], fs := fsRemove p s.fs })

/-- `xcode-select -print-path`: recorded, then succeeds or throws per the
oracle (`buildForIosIphoneos` / `buildForIosIphonesim` wrap the failure). -/
def runXcodeSelect (env : Env) : M Unit := fun s =>
  ((if env.xcodeOk then .ok () else .error .xcodePathError),
   { s with trace := s.trace ++ [.xcodeSelectPrintPath] })

/-- `createOptions` from `src/index.ts`: rejects a falsy `opensslVersion`
and otherwise builds the `Options` record, with the fallback expression
`input.clean || true` for the clean flag and `path.resolve` applied to the
dist path. -/
def createOptions (cwd : Path) (input : OptionsInput) :
    Except BuildError Options :=
  if isFalsyStr input.opensslVersion then
    .error .opensslVersionNotSpecified
  else
    .ok {
      opensslVersion := input.opensslVersion.getD ""
      target := input.target
      clean := input.clean || true
      distPath := resolvePath cwd input.distPath
      androidAPI := input.androidAPI
      androidArchs := input.androidArchs
      iphoneosArchs := input.iphoneosArchs
      iphonesimArchs := input.iphonesimArchs }

/-- The path of the downloaded tarball for a version. -/
def downloadPathFor (ver : String) : Path :=
  ["tmp", "openssl-" ++ ver ++ ".tar.gz"]

/-- `downloadOpenssl`: reuse the tarball when it exists and cleaning is off;
otherwise remove, re-create and fetch.  (The `fetch`/`Bun.write` pair is one
`fetch` trace entry that makes the tarball exist; the conditional
`process.on("exit")` cleanup registration is not modelled.) -/
def downloadOpenssl (ver : String) (shouldClean : Bool) :
    M Path := do
  let downloadPath := downloadPathFor ver
  let ex ← existsSync downloadPath
  if ex && !shouldClean then
    pure downloadPath
  else do
    let srcPath : Path := ["tmp", "openssl-" ++ ver]
    runRmRf downloadPath
    runRmRf srcPath
    runMkdirP srcPath
    (fun s => (.ok (), { s with
      trace := s.trace ++
        [.fetch ("https://www.openssl.org/source/openssl-" ++ ver ++ ".tar.gz")],
      fs := downloadPath :: s.fs }) : M Unit)
    pure downloadPath

/-- `withDir` at the pipeline level: run the body with the working directory
set to `dirPath`, then restore the original working directory on both exit
paths (the `finally` block); `process.chdir` is modelled as a cwd update. -/
def withDirM (dirPath : Path) (body : M α) : M α := fun s =>
  let originalDir := s.cwd
  let (r, s1) := body { s with cwd := dirPath }
  (r, { s1 with cwd := originalDir })

/-- The valid Android architectures (`["arm", "arm64", "x86", "x86_64"]`). -/
def androidValidArchs : List String := ["arm", "arm64", "x86", "x86_64"]

/-- The architecture-validation loop at the top of `buildForAndroid`. -/
def validateAndroidArchs : List String → Except BuildError Unit
  | [] => .ok ()
  | a :: rest =>
    if androidValidArchs.contains a then validateAndroidArchs rest
    else .error (.invalidAndroidArch a)

/-- The fixed Configure feature flags for Android. -/
def androidFlags : List String :=
  ["-fPIC", "no-ui-console", "no-engine", "no-filenames", "no-stdio"]

/-- The fixed Configure feature flags for both iOS variants. -/
def iosFlags : List String :=
  ["no-ui-console", "no-engine", "no-filenames", "no-shared"]

/-- The library artifacts collected for Android. -/
def androidLibs : List String :=
  ["libssl.a", "libcrypto.a", "libssl.so", "libcrypto.so"]

/-- The library artifacts collected for the iOS variants. -/
def iosLibs : List String := ["libssl.a", "libcrypto.a"]

/-- Per-platform scratch source directories in `/tmp`. -/
def srcDirAndroid : Path := ["tmp", "openssl_android"]

/-- iPhoneOS scratch source directory. -/
def srcDirIphoneos : Path := ["tmp", "openssl_iphoneos"]

/-- iPhoneSimulator scratch source directory. -/
def srcDirIphonesim : Path := ["tmp", "openssl_iphonesim"]

/-- Per-architecture install prefix for Android. -/
def installPathAndroid (arch : String) : Path :=
  ["tmp", "openssl-android-" ++ arch]

/-- Per-architecture install prefix for iPhoneOS. -/
def installPathIphoneos (arch : String) : Path :=
  ["tmp", "openssl-iphoneos-" ++ arch]

/-- Per-architecture install prefix for iPhoneSimulator. -/
def installPathIphonesim (arch : String) : Path :=
  ["tmp", "openssl-iphonesim-" ++ arch]

/-- The Android artifact-collection loop: check each library exists under
`installPath/lib` and `cp -a` it into the per-architecture dist directory,
else throw. -/
def copyAndroidLibs (installPath archDistPath : Path) :
    List String → M Unit
  | [] => pure ()
  | lib :: rest => do
    let srcLibPath := installPath ++ ["lib", lib]
    let dstLibPath := archDistPath ++ [lib]
    let ex ← existsSync srcLibPath
    if ex then runCpA srcLibPath dstLibPath
    else throwM (.libNotFound lib)
    copyAndroidLibs installPath archDistPath rest

/-- The body of the per-architecture loop in `buildForAndroid` (the `try`
part): configure, compile, install, collect, and wholesale-replace the
platform `include/` directory.  The `process.on("exit")` registration and
the environment-variable exports are not modelled. -/
def buildAndroidArch (env : Env) (distPath : Path) (arch : String) :
    M Unit := do
  let installPath := installPathAndroid arch
  runRmRf installPath
  let config := "android-" ++ arch
  runConfigure env config androidFlags installPath
  runMake env ["-j8"]
  runInstall env installPath
  let archDistPath := distPath ++ [arch]
  runMkdirP archDistPath
  copyAndroidLibs installPath archDistPath androidLibs
  runRmRf (distPath ++ ["include"])
  runCpAInclude (installPath ++ ["include"]) distPath

/-- The per-architecture loop of `buildForAndroid`, with each iteration's
failure wrapped with the architecture context. -/
def androidArchLoop (env : Env) (distPath : Path) : List String → M Unit
  | [] => pure ()
  | arch :: rest => do
    tryCatchM (buildAndroidArch env distPath arch)
      (fun e =>
        throwM (.wrap ("Failed to build OpenSSL for Android " ++ arch) e))
    androidArchLoop env distPath rest

/-- `buildForAndroid` from `src/index.ts`. -/
def buildForAndroid (env : Env) (tarPath : Path) (options : Options) :
    M Unit := do
  let archs := jsSplit ',' options.androidArchs
  liftExcept (validateAndroidArchs archs)
  match env.ndkHome with
  | none => throwM .ndkHomeUnset
  | some androidNDKHome => do
    let toolchainPath := androidNDKHome ++ ["toolchains", "llvm", "prebuilt"]
    let ex ← existsSync toolchainPath
    if !ex then throwM .ndkHomeInvalid
    let hostDirs := toolchainHostDirs env toolchainPath
    (fun s =>
      (.ok (), { s with trace := s.trace ++ [.lsDir toolchainPath] }) : M Unit)
    if hostDirs.length ≠ 1 then throwM .ambiguousToolchain
    let distPath := options.distPath ++ ["android"]
    runMkdirP distPath
    let srcPath := srcDirAndroid
    let exSrc ← existsSync srcPath
    if exSrc && !options.clean then
      pure ()
    else do
      runRmRf srcPath
      runMkdirP srcPath
      tryCatchM (runTar env tarPath srcPath)
        (fun e => throwM (.untarFailed e))
      let exSrc2 ← existsSync srcPath
      if !exSrc2 then throwM .extractFailed
      let extractedSrcPath :=
        srcPath ++ ["openssl-" ++ options.opensslVersion]
      withDirM extractedSrcPath (androidArchLoop env distPath archs)

/-- The iOS artifact-collection loop: check each library exists under
`installPath/lib`; when more than one architecture is requested, copy to the
architecture-suffixed staging name, else directly to the canonical name. -/
def copyIosLibs (distPath installPath : Path) (arch : String)
    (multi : Bool) : List String → M Unit
  | [] => pure ()
  | lib :: rest => do
    let srcLibPath := installPath ++ ["lib", lib]
    let dstLibPath := distPath ++ [lib]
    let ex ← existsSync srcLibPath
    if ex then
      if multi then runCp srcLibPath (distPath ++ [lib ++ "." ++ arch])
      else runCp srcLibPath dstLibPath
    else throwM (.libNotFound lib)
    copyIosLibs distPath installPath arch multi rest

/-- The body of the per-architecture loop in `buildForIosIphoneos`. -/
def buildIphoneosArch (env : Env) (distPath : Path) (archs : List String)
    (arch : String) : M Unit := do
  let config := if arch = "arm64" then "ios64-xcrun" else "ios-xcrun"
  let installPath := installPathIphoneos arch
  runRmRf installPath
  runConfigure env config iosFlags installPath
  runMake env ["-j8"]
  runInstall env installPath
  copyIosLibs distPath installPath arch (decide (1 < archs.length)) iosLibs
  runRmRf (distPath ++ ["include"])
  runCpAInclude (installPath ++ ["include"]) distPath

/-- The per-architecture loop of `buildForIosIphoneos`. -/
def iphoneosArchLoop (env : Env) (distPath : Path) (archs : List String) :
    List String → M Unit
  | [] => pure ()
  | arch :: rest => do
    tryCatchM (buildIphoneosArch env distPath archs arch)
      (fun e =>
        throwM (.wrap ("Failed building OpenSSL for iPhone OS " ++ arch) e))
    iphoneosArchLoop env distPath archs rest

/-- Removal of the per-architecture staged files after a merge. -/
def lipoCleanupLoop (distPath : Path) (lib : String) :
    List String → M Unit
  | [] => pure ()
  | arch :: rest => do
    runRm (distPath ++ [lib ++ "." ++ arch])
    lipoCleanupLoop distPath lib rest

/-- The fat-binary merge loop of `buildForIosIphoneos`: the staged file
names are joined with spaces into ONE string, which Bun's shell passes to
`lipo` as a single escaped token. -/
def iphoneosMergeLoop (env : Env) (distPath : Path) (archs : List String) :
    List String → M Unit
  | [] => pure ()
  | lib :: rest => do
    let archFiles := String.intercalate " "
      (archs.map (fun arch => pathToString (distPath ++ [lib ++ "." ++ arch])))
    runLipo env [archFiles] (distPath ++ [lib])
    lipoCleanupLoop distPath lib archs
    iphoneosMergeLoop env distPath archs rest

/-- The `withDir` callback of `buildForIosIphoneos`: run every architecture,
then merge into a fat binary when more than one architecture was
requested. -/
def iphoneosBuildAndMerge (env : Env) (distPath : Path)
    (archs : List String) : M Unit := do
  iphoneosArchLoop env distPath archs archs
  if 1 < archs.length then
    iphoneosMergeLoop env distPath archs iosLibs

/-- `buildForIosIphoneos` from `src/index.ts`. -/
def buildForIosIphoneos (env : Env) (tarPath : Path) (options : Options) :
    M Unit := do
  if options.iphoneosArchs = "" then throwM .iosArchsNotSpecified
  runXcodeSelect env
  let distPath := options.distPath ++ ["iphoneos"]
  runMkdirP distPath
  let srcPath := srcDirIphoneos
  let exSrc ← existsSync srcPath
  if exSrc && !options.clean then
    pure ()
  else do
    runRmRf srcPath
    runMkdirP srcPath
    tryCatchM (runTar env tarPath srcPath)
      (fun e => throwM (.untarFailed e))
    let exSrc2 ← existsSync srcPath
    if !exSrc2 then throwM .extractFailed
    let extractedSrcPath := srcPath ++ ["openssl-" ++ options.opensslVersion]
    withDirM extractedSrcPath
      (iphoneosBuildAndMerge env distPath (jsSplit ',' options.iphoneosArchs))

/-- The body of the per-architecture loop in `buildForIosIphonesim`. -/
def buildIphonesimArch (env : Env) (distPath : Path) (archs : List String)
    (arch : String) : M Unit := do
  let config := if arch = "arm64" then "iossimulator-arm64-xcrun"
                else "iossimulator-x86_64-xcrun"
  let installPath := installPathIphonesim arch
  runRmRf installPath
  runConfigure env config iosFlags installPath
  runMake env ["-j8"]
  runInstall env installPath
  copyIosLibs distPath installPath arch (decide (1 < archs.length)) iosLibs
  runRmRf (distPath ++ ["include"])
  runCpAInclude (installPath ++ ["include"]) distPath

/-- The per-architecture loop of `buildForIosIphonesim`. -/
def iphonesimArchLoop (env : Env) (distPath : Path) (archs : List String) :
    List String → M Unit
  | [] => pure ()
  | arch :: rest => do
    tryCatchM (buildIphonesimArch env distPath archs arch)
      (fun e =>
        throwM (.wrap ("Building OpenSSL for iphonesim " ++ arch) e))
    iphonesimArchLoop env distPath archs rest

/-- The fat-binary merge loop of `buildForIosIphonesim`: here the staged
file names are passed as an ARRAY, which Bun's shell expands into one token
per element (see the comment in the source). -/
def iphonesimMergeLoop (env : Env) (distPath : Path) (archs : List String) :
    List String → M Unit
  | [] => pure ()
  | lib :: rest => do
    let archFiles :=
      archs.map (fun arch => pathToString (distPath ++ [lib ++ "." ++ arch]))
    runLipo env archFiles (distPath ++ [lib])
    lipoCleanupLoop distPath lib archs
    iphonesimMergeLoop env distPath archs rest

/-- The `withDir` callback of `buildForIosIphonesim`. -/
def iphonesimBuildAndMerge (env : Env) (distPath : Path)
    (archs : List String) : M Unit := do
  iphonesimArchLoop env distPath archs archs
  if 1 < archs.length then
    iphonesimMergeLoop env distPath archs iosLibs

/-- `buildForIosIphonesim` from `src/index.ts`. -/
def buildForIosIphonesim (env : Env) (tarPath : Path) (options : Options) :
    M Unit := do
  if options.iphonesimArchs = "" then throwM .iosSimArchsNotSpecified
  runXcodeSelect env
  let distPath := options.distPath ++ ["iphonesim"]
  runMkdirP distPath
  let srcPath := srcDirIphonesim
  let exSrc ← existsSync srcPath
  if exSrc && !options.clean then
    pure ()
  else do
    runRmRf srcPath
    runMkdirP srcPath
    tryCatchM (runTar env tarPath srcPath)
      (fun e => throwM (.untarFailed e))
    let exSrc2 ← existsSync srcPath
    if !exSrc2 then throwM .extractFailed
    let extractedSrcPath := srcPath ++ ["openssl-" ++ options.opensslVersion]
    withDirM extractedSrcPath
      (iphonesimBuildAndMerge env distPath (jsSplit ',' options.iphonesimArchs))

/-- The `main` function: create options, optionally nuke the dist path,
create it, download the tarball, then run the platform builders selected by
the target. -/
def mainM (env : Env) (cwd : Path) (input : OptionsInput) : M Unit := do
  let options ← liftExcept (createOptions cwd input)
  if options.clean then runRmRf options.distPath
  runMkdirP options.distPath
  let tarPath ← downloadOpenssl options.opensslVersion options.clean
  if options.target = .android ∨ options.target = .all then
    buildForAndroid env tarPath options
  if options.target = .iphoneos ∨ options.target = .all then
    buildForIosIphoneos env tarPath options
  if options.target = .iphonesim ∨ options.target = .all then
    buildForIosIphonesim env tarPath options

/-- The top-level `try { await main() } catch { process.exit(1) }`: exit
status 0 on success, 1 on any uncaught error. -/
def runMain (env : Env) (cwd : Path) (input : OptionsInput) (s : St) :
    Nat × St :=
  match mainM env cwd input s with
  | (.ok _, s') => (0, s')
  | (.error _, s') => (1, s')

/-- The precise model of `withDir` for the frame-effect claim: a process
state is the working directory plus arbitrary other data `σ` that the
callback may mutate; the callback may also move the working directory and
may throw.  `withDir` chdirs into `dirPath`, runs the callback, and the
`finally` block restores the original working directory on both exit
paths. -/
def withDir (dirPath : String) (callback : String × σ → Except ε α × (String × σ))
    (s : String × σ) : Except ε α × (String × σ) :=
  let originalDir := s.1
  let (r, s1) := callback (dirPath, s.2)
  (r, (originalDir, s1.2))

/-! ## Shared fixtures and helper predicates -/

/-- Recognize a `lipo` invocation in a trace. -/
def isLipoCmd : Cmd → Bool
  | .lipo _ _ => true
  | _ => false

/-- Recognize a `cp` invocation in a trace. -/
def isCpCmd : Cmd → Bool
  | .cp _ _ => true
  | _ => false

/-- An environment in which every external collaborator behaves: the NDK is
at `/ndk` with exactly one prebuilt host toolchain, Xcode is found, and
every build step succeeds, installing the four libraries and the headers. -/
def happyEnv : Env := {
  ndkHome := some ["ndk"]
  lsOutput := fun _ => "darwin-x86_64"
  xcodeOk := true
  tarOk := true
  configureOk := fun _ _ => true
  makeOk := fun _ => true
  lipoOk := true
  installOutputs := fun _ =>
    [["lib", "libssl.a"], ["lib", "libcrypto.a"],
     ["lib", "libssl.so"], ["lib", "libcrypto.so"], ["include"]] }

/-- The NDK prebuilt-toolchains directory of `happyEnv`. -/
def toolchainPrebuilt : Path := ["ndk", "toolchains", "llvm", "prebuilt"]

/-- Projection of `happyEnv`. -/
@[simp] theorem happyEnv_ndkHome : happyEnv.ndkHome = some ["ndk"] := rfl

/-- Projection of `happyEnv`. -/
@[simp] theorem happyEnv_lsOutput (p : Path) :
    happyEnv.lsOutput p = "darwin-x86_64" := rfl

/-- Projection of `happyEnv`. -/
@[simp] theorem happyEnv_xcodeOk : happyEnv.xcodeOk = true := rfl

/-- Projection of `happyEnv`. -/
@[simp] theorem happyEnv_tarOk : happyEnv.tarOk = true := rfl

/-- Projection of `happyEnv`. -/
@[simp] theorem happyEnv_configureOk (c : String) (p : Path) :
    happyEnv.configureOk c p = true := rfl

/-- Projection of `happyEnv`. -/
@[simp] theorem happyEnv_makeOk (a : List String) :
    happyEnv.makeOk a = true := rfl

/-- Projection of `happyEnv`. -/
@[simp] theorem happyEnv_lipoOk : happyEnv.lipoOk = true := rfl

/-- Projection of `happyEnv`. -/
@[simp] theorem happyEnv_installOutputs (p : Path) :
    happyEnv.installOutputs p =
      [["lib", "libssl.a"], ["lib", "libcrypto.a"],
       ["lib", "libssl.so"], ["lib", "libcrypto.so"], ["include"]] := rfl

/-- An initial state: only the NDK toolchain directory exists, nothing has
run, and the working directory is `/home`. -/
def stStart : St :=
  { fs := [toolchainPrebuilt], includes := [], trace := [], cwd := ["home"] }

/-- The tarball path for version 3.4.0. -/
def tarPath340 : Path := downloadPathFor "3.4.0"

/-- Concrete resolved options selecting one target with given architecture
lists, with `clean` and dist path `/dist` fixed. -/
def mkOpts (t : Target) (cl : Bool) (aA iA sA : String) : Options :=
  { opensslVersion := "3.4.0", target := t, clean := cl, distPath := ["dist"],
    androidAPI := "21", androidArchs := aA, iphoneosArchs := iA,
    iphonesimArchs := sA }

/-- Concrete raw CLI input requesting all targets. -/
def inputAll : OptionsInput :=
  { opensslVersion := some "3.4.0", target := .all, clean := false,
    distPath := "dist", androidAPI := "21", androidArchs := "arm64",
    iphoneosArchs := "arm64", iphonesimArchs := "arm64" }

/-- Concrete raw CLI input with the clean flag explicitly false. -/
def inputCleanFalse : OptionsInput :=
  { opensslVersion := some "3.4.0", target := .all, clean := false,
    distPath := "dist", androidAPI := "21", androidArchs := "arm64",
    iphoneosArchs := "", iphonesimArchs := "" }

/-- What `createOptions` produces from `inputCleanFalse` (clean forced). -/
def outputCleanForced : Options :=
  { opensslVersion := "3.4.0", target := .all, clean := true,
    distPath := ["home", "dist"], androidAPI := "21", androidArchs := "arm64",
    iphoneosArchs := "", iphonesimArchs := "" }

/-! ## Unfolding lemmas for the monad -/

/-- Do-notation bind unfolds to `mBind`. -/
theorem bind_is_mBind (x : M α) (f : α → M β) : x >>= f = mBind x f := rfl

/-- Applying a bind to a state. -/
theorem mBind_apply (x : M α) (f : α → M β) (s : St) :
    mBind x f s =
      match x s with
      | (.ok a, s') => f a s'
      | (.error e, s') => (.error e, s') := rfl

/-- Applying `pure` to a state. -/
theorem pure_apply (a : α) (s : St) : (pure a : M α) s = (.ok a, s) := rfl

/-- Applying `liftExcept` to a state. -/
theorem liftExcept_apply (x : Except BuildError α) (s : St) :
    liftExcept x s = (x, s) := rfl

/-- `fsContains` on the empty filesystem. -/
@[simp]
theorem fsContains_nil (p : Path) : fsContains [] p = false := rfl

/-- `fsContains` scans head-first. -/
@[simp]
theorem fsContains_cons (q : Path) (fs : List Path) (p : Path) :
    fsContains (q :: fs) p = (pathBeq q p || fsContains fs p) := rfl

/-- `fsContains` distributes over appends. -/
@[simp]
theorem fsContains_append (l1 l2 : List Path) (p : Path) :
    fsContains (l1 ++ l2) p = (fsContains l1 p || fsContains l2 p) := by
  simp [fsContains, List.any_append]

attribute [simp] bind_is_mBind mBind_apply pure_apply liftExcept_apply
  throwM tryCatchM existsSync runRmRf runMkdirP runTar runConfigure runMake
  runInstall addInstallOutputs runCp runCpA runCpAInclude runLipo runRm
  runXcodeSelect fsRemove underPath pathBeq
  pathIsPrefixOf lookupIncl jsSplit jsSplitAux jsTrim isWsChar
  startsWithSlash pathToString isFalsyStr Except.isOk Except.toBool
  isLipoCmd isCpCmd

/-- The scratch directory names are pairwise incompatible: an
architecture-suffixed install-prefix name never equals a platform source
directory name, whatever the architecture (the prefix is strictly longer).
These three lemmas discharge the only symbolic string comparisons the
filesystem model encounters. -/
@[simp]
theorem beq_install_android_srcdir (arch : String) :
    (("openssl-android-" ++ arch) == "openssl_android") = false := by
  rw [beq_eq_false_iff_ne]
  intro h
  have hlen := congrArg String.length h
  rw [String.length_append] at hlen
  have h1 : ("openssl-android-" : String).length = 16 := by decide
  have h2 : ("openssl_android" : String).length = 15 := by decide
  rw [h1, h2] at hlen
  omega

/-- iPhoneOS variant of `beq_install_android_srcdir`. -/
@[simp]
theorem beq_install_iphoneos_srcdir (arch : String) :
    (("openssl-iphoneos-" ++ arch) == "openssl_iphoneos") = false := by
  rw [beq_eq_false_iff_ne]
  intro h
  have hlen := congrArg String.length h
  rw [String.length_append] at hlen
  have h1 : ("openssl-iphoneos-" : String).length = 17 := by decide
  have h2 : ("openssl_iphoneos" : String).length = 16 := by decide
  rw [h1, h2] at hlen
  omega

/-- iPhoneSimulator variant of `beq_install_android_srcdir`. -/
@[simp]
theorem beq_install_iphonesim_srcdir (arch : String) :
    (("openssl-iphonesim-" ++ arch) == "openssl_iphonesim") = false := by
  rw [beq_eq_false_iff_ne]
  intro h
  have hlen := congrArg String.length h
  rw [String.length_append] at hlen
  have h1 : ("openssl-iphonesim-" : String).length = 18 := by decide
  have h2 : ("openssl_iphonesim" : String).length = 17 := by decide
  rw [h1, h2] at hlen
  omega

/-! ## C1 -/

/-- C1: for every input accepted by `createOptions` (its `opensslVersion`
set, i.e. truthy), the returned `Options` has `clean = true` — even when
the caller passed `clean = false` — because the fallback expression
`input.clean || true` forces the flag on. -/
theorem createOptions_forces_clean (cwd : Path) (input : OptionsInput)
    (o : Options) (h : createOptions cwd input = .ok o) : o.clean = true := by
  unfold createOptions at h
  split at h
  · exact Except.noConfusion h
  · cases h
    simp [Bool.or_true]

/-- Witness for C1 at a concrete input that explicitly passes
`clean = false`. -/
theorem createOptions_forces_clean_witness : outputCleanForced.clean = true :=
  createOptions_forces_clean ["home"] inputCleanFalse outputCleanForced
    (by rfl)

/-! ## C10 -/

/-- Counterexample for C10: `createOptions` does not accept every other
input unchanged — on a concrete input with `clean = false` the returned
record has `clean = true` (and the dist path is resolved against the
working directory, also a change). -/
theorem createOptions_alters_clean_field :
    createOptions ["home"] inputCleanFalse = .ok outputCleanForced ∧
    inputCleanFalse.clean = false ∧
    outputCleanForced.clean ≠ inputCleanFalse.clean ∧
    inputCleanFalse.distPath = "dist" ∧
    outputCleanForced.distPath = ["home", "dist"] :=
  ⟨by rfl, by rfl, by decide, by rfl, by rfl⟩

/-- C10 (amended): `createOptions` throws if and only if the input's
`opensslVersion` is absent or falsy, and performs no validation of the
target selector, the dist path, the Android API level, or the architecture
lists — those pass through unchanged — but it does not accept every field
unchanged: `clean` is forced to `true` and `distPath` is resolved against
the working directory. -/
theorem createOptions_throws_iff_version_falsy (cwd : Path)
    (input : OptionsInput) :
    match createOptions cwd input with
    | .error e =>
        isFalsyStr input.opensslVersion = true ∧
        e = .opensslVersionNotSpecified
    | .ok o =>
        isFalsyStr input.opensslVersion = false ∧
        o.opensslVersion = input.opensslVersion.getD "" ∧
        o.target = input.target ∧
        o.clean = true ∧
        o.distPath = resolvePath cwd input.distPath ∧
        o.androidAPI = input.androidAPI ∧
        o.androidArchs = input.androidArchs ∧
        o.iphoneosArchs = input.iphoneosArchs ∧
        o.iphonesimArchs = input.iphonesimArchs := by
  cases hv : input.opensslVersion with
  | none => simp [createOptions, hv]
  | some s =>
    by_cases hs : s = "" <;> simp [createOptions, hv, hs]

/-! ## C9 -/

/-- C9: `withDir` always restores the working directory to what it was
before the call — the equations below hold unconditionally, hence both when
the callback returns normally and when it throws — and it propagates the
callback's result (value or error) and the callback's effect on the rest of
the process state unchanged. -/
theorem withDir_restores_cwd (dirPath : String)
    (cb : String × σ → Except ε α × (String × σ)) (s : String × σ) :
    (withDir dirPath cb s).2.1 = s.1 ∧
    (withDir dirPath cb s).1 = (cb (dirPath, s.2)).1 ∧
    (withDir dirPath cb s).2.2 = (cb (dirPath, s.2)).2.2 := by
  rcases h : cb (dirPath, s.2) with ⟨r, s1⟩
  simp [withDir, h]

/-! ## C2 -/

/-- `happyEnv` with no `ANDROID_NDK_HOME` set, so the Android pipeline
fails. -/
def envNoNdk : Env := { happyEnv with ndkHome := none }

/-- Counterexample for C2: a concrete `--target=all` run in which the
Android pipeline fails (NDK unset).  The process exits 1 as required, but
the next requested platform is NOT attempted: `xcode-select -print-path`,
the first external command of the iPhoneOS builder (whose architecture list
is non-empty here), never appears in the trace.  The error propagates to
the single top-level catch, aborting the whole run. -/
theorem all_run_aborts_on_android_failure :
    inputAll.target = .all ∧ inputAll.iphoneosArchs = "arm64" ∧
    (runMain envNoNdk ["home"] inputAll stStart).1 = 1 ∧
    Cmd.xcodeSelectPrintPath ∉
      (runMain envNoNdk ["home"] inputAll stStart).2.trace := by
  refine ⟨rfl, rfl, ?_⟩
  simp [runMain, mainM, createOptions, resolvePath, downloadOpenssl,
    downloadPathFor, buildForAndroid, validateAndroidArchs, androidValidArchs,
    envNoNdk, happyEnv, inputAll, stStart, toolchainPrebuilt, srcDirAndroid]

/-- C2 (amended): when the target is `all` and the Android pipeline raises
an error, the error propagates to the single top-level catch: the process
exits 1 (non-zero as the claim says), but the remaining requested platforms
are NOT attempted — no iPhoneOS/iPhoneSimulator command (in particular not
their first one, `xcode-select -print-path`) is ever run.  There is no
per-platform fault isolation. -/
theorem all_run_exits_nonzero_and_skips_remaining_platforms (env : Env)
    (cwd : Path) (input : OptionsInput) (s : St)
    (htgt : input.target = .all)
    (hndk : env.ndkHome = none)
    (hxc : Cmd.xcodeSelectPrintPath ∉ s.trace) :
    (runMain env cwd input s).1 = 1 ∧
    Cmd.xcodeSelectPrintPath ∉ (runMain env cwd input s).2.trace := by
  cases hv : input.opensslVersion with
  | none =>
    simp [runMain, mainM, createOptions, hv, hxc]
  | some ver =>
    by_cases hver : ver = ""
    · simp [runMain, mainM, createOptions, hv, hver, hxc]
    · cases hval : validateAndroidArchs (jsSplit ',' input.androidArchs) with
      | error e =>
        simp only [jsSplit] at hval
        simp [runMain, mainM, createOptions, downloadOpenssl, buildForAndroid,
          hv, hver, htgt, hval, hxc]
      | ok u =>
        cases u
        simp only [jsSplit] at hval
        simp [runMain, mainM, createOptions, downloadOpenssl, buildForAndroid,
          hv, hver, htgt, hndk, hval, hxc]

/-- Witness for C2's amended theorem at the concrete failing run. -/
theorem all_run_exits_nonzero_witness :
    (runMain envNoNdk ["home"] inputAll stStart).1 = 1 ∧
    Cmd.xcodeSelectPrintPath ∉
      (runMain envNoNdk ["home"] inputAll stStart).2.trace :=
  all_run_exits_nonzero_and_skips_remaining_platforms envNoNdk ["home"]
    inputAll stStart rfl rfl (by decide)

/-! ## C3 -/

/-- If some entry of a list is not a valid Android architecture, the
validation loop reports an invalid-architecture error (the first offending
entry). -/
theorem validateAndroidArchs_error_of_mem {l : List String} {a : String}
    (ha : a ∈ l) (hbad : androidValidArchs.contains a = false) :
    ∃ b, androidValidArchs.contains b = false ∧
      validateAndroidArchs l = .error (.invalidAndroidArch b) := by
  induction l with
  | nil => cases ha
  | cons c rest ih =>
    cases hc : androidValidArchs.contains c with
    | false =>
      refine ⟨c, hc, ?_⟩
      simp only [validateAndroidArchs]
      rw [hc]
      simp
    | true =>
      have ha' : a ∈ rest := by
        rcases List.mem_cons.mp ha with h | h
        · subst h
          rw [hc] at hbad
          cases hbad
        · exact h
      rcases ih ha' with ⟨b, hb, hval⟩
      refine ⟨b, hb, ?_⟩
      simp only [validateAndroidArchs]
      rw [hc]
      simpa using hval

/-- C3 (amended): only the Android builder validates its architecture list.
`buildForAndroid` fails with an invalid-architecture error — with the state
completely unchanged, so before any external command runs — whenever any
entry of the comma-separated list is outside {arm, arm64, x86, x86_64}.
The iOS builders perform no architecture validation at all (see the
counterexample, where `iphoneos` happily builds an unknown architecture). -/
theorem android_invalid_arch_rejected_before_commands (env : Env)
    (tarPath : Path) (options : Options) (s : St) (a : String)
    (ha : a ∈ jsSplit ',' options.androidArchs)
    (hbad : androidValidArchs.contains a = false) :
    ∃ b, androidValidArchs.contains b = false ∧
      buildForAndroid env tarPath options s =
        (.error (.invalidAndroidArch b), s) := by
  rcases validateAndroidArchs_error_of_mem ha hbad with ⟨b, hb, hval⟩
  simp only [jsSplit] at hval
  exact ⟨b, hb, by simp [buildForAndroid, hval]⟩

/-- Witness for C3's amended theorem: a concrete Android run with the
unknown architecture `mips` fails before any command runs. -/
theorem android_invalid_arch_rejected_witness :
    ∃ b, androidValidArchs.contains b = false ∧
      buildForAndroid happyEnv tarPath340 (mkOpts .android true "mips" "" "")
        stStart = (.error (.invalidAndroidArch b), stStart) :=
  android_invalid_arch_rejected_before_commands happyEnv tarPath340
    (mkOpts .android true "mips" "" "") stStart "mips" (by decide) (by decide)

/-- Counterexample for C3: the iPhoneOS builder accepts the architecture
string `mips`, which is outside the claimed valid set {arm64, x86_64}: the
run raises no invalid-architecture error (it succeeds end to end in a happy
environment) and external commands do run — `./Configure` is invoked with
the fallback `ios-xcrun` configuration for the bogus architecture. -/
theorem iphoneos_accepts_unknown_architecture :
    (buildForIosIphoneos happyEnv tarPath340 (mkOpts .iphoneos true "" "mips" "")
      stStart).1.isOk = true ∧
    Cmd.configure "ios-xcrun" iosFlags (installPathIphoneos "mips") ∈
      (buildForIosIphoneos happyEnv tarPath340 (mkOpts .iphoneos true "" "mips" "")
        stStart).2.trace := by
  simp [withDirM, fsContains, buildForIosIphoneos, iphoneosBuildAndMerge, iphoneosArchLoop, buildIphoneosArch, copyIosLibs,
    iphoneosMergeLoop, lipoCleanupLoop, mkOpts, happyEnv, stStart, tarPath340,
    downloadPathFor, srcDirIphoneos, installPathIphoneos, iosFlags, iosLibs,
    toolchainPrebuilt]

/-! ## C4 -/

/-- A two-architecture iPhoneOS run in the happy environment. -/
def iphoneosMultiRun : Except BuildError Unit × St :=
  buildForIosIphoneos happyEnv tarPath340
    (mkOpts .iphoneos true "" "arm64,x86_64" "") stStart

/-- A two-architecture iPhoneSimulator run in the happy environment. -/
def iphonesimMultiRun : Except BuildError Unit × St :=
  buildForIosIphonesim happyEnv tarPath340
    (mkOpts .iphonesim true "" "" "arm64,x86_64") stStart

/-- C4, evaluated at the failing input (`iphoneos`, two architectures): the
merge step is indeed invoked exactly once per library name and the staged
files are afterwards removed while the canonical outputs exist, BUT in the
iPhoneOS builder `lipo` is passed a SINGLE argument — the N staged paths
joined into one space-separated string (Bun's shell passes an interpolated
string as one escaped token) — not N separate staged input files.  The
iPhoneSimulator builder, which passes an array (expanded to one token per
element, as its own comment explains), receives the two staged files
separately and satisfies the claim. -/
theorem iphoneos_lipo_receives_single_joined_argument :
    iphoneosMultiRun.2.trace.filter isLipoCmd =
      [.lipo ["/dist/iphoneos/libssl.a.arm64 /dist/iphoneos/libssl.a.x86_64"]
         ["dist", "iphoneos", "libssl.a"],
       .lipo ["/dist/iphoneos/libcrypto.a.arm64 /dist/iphoneos/libcrypto.a.x86_64"]
         ["dist", "iphoneos", "libcrypto.a"]] ∧
    iphonesimMultiRun.2.trace.filter isLipoCmd =
      [.lipo ["/dist/iphonesim/libssl.a.arm64", "/dist/iphonesim/libssl.a.x86_64"]
         ["dist", "iphonesim", "libssl.a"],
       .lipo ["/dist/iphonesim/libcrypto.a.arm64", "/dist/iphonesim/libcrypto.a.x86_64"]
         ["dist", "iphonesim", "libcrypto.a"]] ∧
    iphonesimMultiRun.1.isOk = true ∧
    fsContains iphonesimMultiRun.2.fs ["dist", "iphonesim", "libssl.a"] = true ∧
    fsContains iphonesimMultiRun.2.fs ["dist", "iphonesim", "libcrypto.a"] = true ∧
    fsContains iphonesimMultiRun.2.fs ["dist", "iphonesim", "libssl.a.arm64"] = false ∧
    fsContains iphonesimMultiRun.2.fs ["dist", "iphonesim", "libssl.a.x86_64"] = false ∧
    fsContains iphonesimMultiRun.2.fs ["dist", "iphonesim", "libcrypto.a.arm64"] = false ∧
    fsContains iphonesimMultiRun.2.fs ["dist", "iphonesim", "libcrypto.a.x86_64"] = false := by
  simp [withDirM, fsContains, iphoneosMultiRun, iphonesimMultiRun, buildForIosIphoneos,
    iphoneosBuildAndMerge, iphonesimBuildAndMerge,
    iphoneosArchLoop, buildIphoneosArch, buildForIosIphonesim,
    iphonesimArchLoop, buildIphonesimArch, copyIosLibs, iphoneosMergeLoop,
    iphonesimMergeLoop, lipoCleanupLoop, mkOpts, happyEnv, stStart,
    tarPath340, downloadPathFor, srcDirIphoneos, srcDirIphonesim,
    installPathIphoneos, installPathIphonesim, iosFlags, iosLibs,
    toolchainPrebuilt]
  decide

/-! ## C7 -/

/-- A state in which the architecture `arm64` install directory already
exists but the platform source directory does not. -/
def stInstallExists : St :=
  { fs := [toolchainPrebuilt, installPathAndroid "arm64"], includes := [],
    trace := [], cwd := ["home"] }

/-- Counterexample for C7: with `clean = false` and the `arm64` install
directory already existing, the Android builder does NOT skip that
architecture — there is no install-directory reuse check at all: the
existing install directory is unconditionally removed (`rm -rf`) and the
Configure/Compile/Install commands run for it. -/
theorem existing_install_dir_still_rebuilt :
    fsContains stInstallExists.fs (installPathAndroid "arm64") = true ∧
    (mkOpts .android false "arm64" "" "").clean = false ∧
    Cmd.rmRf (installPathAndroid "arm64") ∈
      (buildForAndroid happyEnv tarPath340 (mkOpts .android false "arm64" "" "")
        stInstallExists).2.trace ∧
    Cmd.configure "android-arm64" androidFlags (installPathAndroid "arm64") ∈
      (buildForAndroid happyEnv tarPath340 (mkOpts .android false "arm64" "" "")
        stInstallExists).2.trace := by
  simp [withDirM, fsContains, buildForAndroid, validateAndroidArchs, androidValidArchs,
    androidArchLoop, buildAndroidArch, copyAndroidLibs, androidLibs,
    toolchainHostDirs, mkOpts, happyEnv, stInstallExists, tarPath340,
    downloadPathFor, srcDirAndroid, installPathAndroid, androidFlags,
    toolchainPrebuilt]

/-- C7 (amended): the reuse-or-rebuild check (`existsSync` plus
`!options.clean`) is consulted independently for the downloaded source
archive and for the platform source directory — each such step returns
early, reusing the existing tree, with no tar/Configure/make command run —
but NOT for the architectures' install directories: those are
unconditionally removed and rebuilt (see the counterexample). -/
theorem reuse_checks_archive_and_source_directory (ver : String) (env : Env)
    (tarPath : Path) (options : Options) (s : St) (ndk : Path)
    (hclean : options.clean = false)
    (htar : fsContains s.fs (downloadPathFor ver) = true)
    (hsrc : fsContains s.fs srcDirAndroid = true)
    (hval : validateAndroidArchs (jsSplit ',' options.androidArchs) = .ok ())
    (hndk : env.ndkHome = some ndk)
    (htc : fsContains s.fs (ndk ++ ["toolchains", "llvm", "prebuilt"]) = true)
    (hls : (toolchainHostDirs env
      (ndk ++ ["toolchains", "llvm", "prebuilt"])).length = 1) :
    downloadOpenssl ver false s = (.ok (downloadPathFor ver), s) ∧
    buildForAndroid env tarPath options s =
      (.ok (), { s with
        fs := (options.distPath ++ ["android"]) :: s.fs,
        trace := s.trace ++
          [.lsDir (ndk ++ ["toolchains", "llvm", "prebuilt"]),
           .mkdirP (options.distPath ++ ["android"])] }) := by
  simp only [jsSplit] at hval
  constructor
  · simp [downloadOpenssl, htar]
  · simp [buildForAndroid, hval, hndk, htc, hls, hclean, hsrc]

/-- A state in which the tarball, the Android source directory, and the NDK
toolchain directory all already exist. -/
def stReuse : St :=
  { fs := [downloadPathFor "3.4.0", srcDirAndroid, toolchainPrebuilt],
    includes := [], trace := [], cwd := ["home"] }

/-- Witness for C7's amended theorem at a concrete reusing state. -/
theorem reuse_checks_witness :
    downloadOpenssl "3.4.0" false stReuse =
      (.ok (downloadPathFor "3.4.0"), stReuse) ∧
    buildForAndroid happyEnv tarPath340 (mkOpts .android false "arm64" "" "")
      stReuse =
      (.ok (), { stReuse with
        fs := ((mkOpts .android false "arm64" "" "").distPath ++ ["android"]) ::
          stReuse.fs,
        trace := stReuse.trace ++
          [.lsDir (["ndk"] ++ ["toolchains", "llvm", "prebuilt"]),
           .mkdirP ((mkOpts .android false "arm64" "" "").distPath ++ ["android"])] }) :=
  reuse_checks_archive_and_source_directory "3.4.0" happyEnv tarPath340
    (mkOpts .android false "arm64" "" "") stReuse
    ["ndk"] (by decide) (by decide) (by decide) (by rfl) (by rfl)
    (by decide) (by decide)

/-! ## C8 -/

/-- `happyEnv` whose NDK prebuilt-toolchains directory lists no entries. -/
def envEmptyToolchainList : Env := { happyEnv with lsOutput := fun _ => "" }

/-- `happyEnv` whose NDK prebuilt-toolchains directory lists two entries. -/
def envTwoToolchains : Env :=
  { happyEnv with lsOutput := fun _ => "darwin-x86_64\nlinux-x86_64" }

/-- Counterexample for C8: with ZERO entries under the prebuilt-toolchains
path, the build does not fail — `"".trim().split("\n")` is `[""]`, one
(empty) candidate, so the `length !== 1` check passes and the build
proceeds all the way through Configure.  "Fewer than one" entries is
accepted, contrary to the claim. -/
theorem empty_toolchain_listing_not_rejected :
    toolchainHostDirs envEmptyToolchainList toolchainPrebuilt = [""] ∧
    (buildForAndroid envEmptyToolchainList tarPath340
      (mkOpts .android true "arm64" "" "") stStart).1.isOk = true ∧
    Cmd.configure "android-arm64" androidFlags (installPathAndroid "arm64") ∈
      (buildForAndroid envEmptyToolchainList tarPath340
        (mkOpts .android true "arm64" "" "") stStart).2.trace := by
  simp [withDirM, fsContains, buildForAndroid, validateAndroidArchs, androidValidArchs,
    androidArchLoop, buildAndroidArch, copyAndroidLibs, androidLibs,
    toolchainHostDirs, mkOpts, happyEnv, envEmptyToolchainList, stStart,
    tarPath340, downloadPathFor, srcDirAndroid, installPathAndroid,
    androidFlags, toolchainPrebuilt]

/-- C8 (amended): resolving the host-toolchain directory fails with the
toolchain-resolution error — before any configure (indeed before any
further command: only the `ls` itself has run) — exactly when the trimmed
`ls` output splits into a number of lines different from 1.  Two or more
entries therefore fail as the claim says, but zero entries do NOT: an empty
listing splits into one empty candidate and is accepted (see the
counterexample). -/
theorem toolchain_listing_not_single_fails (env : Env) (tarPath : Path)
    (options : Options) (s : St) (ndk : Path)
    (hval : validateAndroidArchs (jsSplit ',' options.androidArchs) = .ok ())
    (hndk : env.ndkHome = some ndk)
    (htc : fsContains s.fs (ndk ++ ["toolchains", "llvm", "prebuilt"]) = true)
    (hcount : (toolchainHostDirs env
      (ndk ++ ["toolchains", "llvm", "prebuilt"])).length ≠ 1) :
    buildForAndroid env tarPath options s =
      (.error .ambiguousToolchain,
       { s with trace := s.trace ++
          [.lsDir (ndk ++ ["toolchains", "llvm", "prebuilt"])] }) := by
  simp only [jsSplit] at hval
  simp [buildForAndroid, hval, hndk, htc, hcount]

/-- Witness for C8's amended theorem: two toolchain entries fail. -/
theorem toolchain_listing_not_single_witness :
    buildForAndroid envTwoToolchains tarPath340
      (mkOpts .android true "arm64" "" "") stStart =
      (.error .ambiguousToolchain,
       { stStart with trace := stStart.trace ++
          [.lsDir (["ndk"] ++ ["toolchains", "llvm", "prebuilt"])] }) :=
  toolchain_listing_not_single_fails envTwoToolchains tarPath340
    (mkOpts .android true "arm64" "" "") stStart ["ndk"] (by rfl) (by rfl)
    (by decide) (by decide)

/-! ## C5 -/

/-- C5: for every iOS platform run (both `iphoneos` and `iphonesim`, in the
happy environment) whose architecture list has exactly one entry, each
library artifact is copied directly to its canonical path in the platform's
output directory — the only `cp` commands of the whole run are the two
canonical-destination copies — with no architecture-suffixed staging copy
created and no `lipo` merge step invoked. -/
theorem single_arch_ios_copies_directly_no_merge (arch : String)
    (h0 : arch ≠ "") (h1 : jsSplit ',' arch = [arch]) :
    (buildForIosIphoneos happyEnv tarPath340 (mkOpts .iphoneos true "" arch "")
      stStart).1.isOk = true ∧
    (buildForIosIphoneos happyEnv tarPath340 (mkOpts .iphoneos true "" arch "")
      stStart).2.trace.filter isCpCmd =
      [.cp (installPathIphoneos arch ++ ["lib", "libssl.a"])
         ["dist", "iphoneos", "libssl.a"],
       .cp (installPathIphoneos arch ++ ["lib", "libcrypto.a"])
         ["dist", "iphoneos", "libcrypto.a"]] ∧
    (∀ ins out, Cmd.lipo ins out ∉
      (buildForIosIphoneos happyEnv tarPath340 (mkOpts .iphoneos true "" arch "")
        stStart).2.trace) ∧
    (buildForIosIphonesim happyEnv tarPath340 (mkOpts .iphonesim true "" "" arch)
      stStart).1.isOk = true ∧
    (buildForIosIphonesim happyEnv tarPath340 (mkOpts .iphonesim true "" "" arch)
      stStart).2.trace.filter isCpCmd =
      [.cp (installPathIphonesim arch ++ ["lib", "libssl.a"])
         ["dist", "iphonesim", "libssl.a"],
       .cp (installPathIphonesim arch ++ ["lib", "libcrypto.a"])
         ["dist", "iphonesim", "libcrypto.a"]] ∧
    (∀ ins out, Cmd.lipo ins out ∉
      (buildForIosIphonesim happyEnv tarPath340 (mkOpts .iphonesim true "" "" arch)
        stStart).2.trace) := by
  simp only [jsSplit] at h1
  simp [withDirM, fsContains, buildForIosIphoneos, iphoneosBuildAndMerge, iphoneosArchLoop, buildIphoneosArch,
    buildForIosIphonesim, iphonesimBuildAndMerge, iphonesimArchLoop, buildIphonesimArch, copyIosLibs,
    iphoneosMergeLoop, iphonesimMergeLoop, lipoCleanupLoop, mkOpts, happyEnv,
    stStart, tarPath340, downloadPathFor, srcDirIphoneos, srcDirIphonesim,
    installPathIphoneos, installPathIphonesim, iosFlags, iosLibs,
    toolchainPrebuilt, h0, h1]

/-- Witness for C5 at the concrete single architecture `arm64`. -/
theorem single_arch_ios_copies_directly_witness :
    (buildForIosIphoneos happyEnv tarPath340
      (mkOpts .iphoneos true "" "arm64" "") stStart).1.isOk = true ∧
    (buildForIosIphoneos happyEnv tarPath340
      (mkOpts .iphoneos true "" "arm64" "") stStart).2.trace.filter isCpCmd =
      [.cp (installPathIphoneos "arm64" ++ ["lib", "libssl.a"])
         ["dist", "iphoneos", "libssl.a"],
       .cp (installPathIphoneos "arm64" ++ ["lib", "libcrypto.a"])
         ["dist", "iphoneos", "libcrypto.a"]] ∧
    (∀ ins out, Cmd.lipo ins out ∉
      (buildForIosIphoneos happyEnv tarPath340
        (mkOpts .iphoneos true "" "arm64" "") stStart).2.trace) ∧
    (buildForIosIphonesim happyEnv tarPath340
      (mkOpts .iphonesim true "" "" "arm64") stStart).1.isOk = true ∧
    (buildForIosIphonesim happyEnv tarPath340
      (mkOpts .iphonesim true "" "" "arm64") stStart).2.trace.filter isCpCmd =
      [.cp (installPathIphonesim "arm64" ++ ["lib", "libssl.a"])
         ["dist", "iphonesim", "libssl.a"],
       .cp (installPathIphonesim "arm64" ++ ["lib", "libcrypto.a"])
         ["dist", "iphonesim", "libcrypto.a"]] ∧
    (∀ ins out, Cmd.lipo ins out ∉
      (buildForIosIphonesim happyEnv tarPath340
        (mkOpts .iphonesim true "" "" "arm64") stStart).2.trace) :=
  single_arch_ios_copies_directly_no_merge "arm64" (by decide) (by decide)

/-! ## C6 -/

/-- Strings of different lengths are never equal. -/
theorem beq_false_of_length_ne {s t : String} (h : s.length ≠ t.length) :
    (s == t) = false := by
  rw [beq_eq_false_iff_ne]
  intro he
  exact h (he ▸ rfl)

/-- A staged `libssl.a.<arch>` file name is never the headers directory
name. -/
@[simp]
theorem include_beq_staged_ssl (a : String) :
    ("include" == ("libssl.a." ++ a)) = false := by
  apply beq_false_of_length_ne
  rw [String.length_append]
  have h1 : ("include" : String).length = 7 := by decide
  have h2 : ("libssl.a." : String).length = 9 := by decide
  omega

/-- A staged `libcrypto.a.<arch>` file name is never the headers directory
name. -/
@[simp]
theorem include_beq_staged_crypto (a : String) :
    ("include" == ("libcrypto.a." ++ a)) = false := by
  apply beq_false_of_length_ne
  rw [String.length_append]
  have h1 : ("include" : String).length = 7 := by decide
  have h2 : ("libcrypto.a." : String).length = 12 := by decide
  omega

/-- A valid Android architecture name is never `include`. -/
theorem include_beq_valid_arch {a : String}
    (h : androidValidArchs.contains a = true) :
    ("include" == a) = false := by
  simp [androidValidArchs] at h
  rcases h with h | h | h | h <;> subst h <;> decide

/-- One Android architecture body in the happy environment, from an
arbitrary state: it succeeds, and afterwards the platform `include/`
directory in the dist tree is the one copied from THIS architecture's
install tree (the body first removes the previous `include/`, then copies
its own — the claim's wholesale replacement). -/
theorem buildAndroidArch_happy_includes (arch : String) (s : St)
    (harch : ("include" == arch) = false) :
    (buildAndroidArch happyEnv ["dist", "android"] arch s).1 = .ok () ∧
    lookupIncl (buildAndroidArch happyEnv ["dist", "android"] arch s).2.includes
      ["dist", "android", "include"] =
      some (installPathAndroid arch ++ ["include"]) := by
  simp [buildAndroidArch, copyAndroidLibs, androidLibs, happyEnv,
    installPathAndroid, androidFlags, harch]

set_option maxHeartbeats 2000000 in
/-- The Android per-architecture loop in the happy environment succeeds and
leaves the dist `include/` directory equal to the LAST architecture's
headers, whatever state it starts from. -/
theorem androidArchLoop_last_include :
    ∀ (archs : List String) (lastA : String), archs.getLast? = some lastA →
    (∀ a ∈ archs, androidValidArchs.contains a = true) →
    ∀ s : St,
    (androidArchLoop happyEnv ["dist", "android"] archs s).1 = .ok () ∧
    lookupIncl
      (androidArchLoop happyEnv ["dist", "android"] archs s).2.includes
      ["dist", "android", "include"] =
      some (installPathAndroid lastA ++ ["include"])
  | [], lastA, hlast, _, s => by simp at hlast
  | [a], lastA, hlast, hvalid, s => by
    have hl : lastA = a := by
      simp [List.getLast?] at hlast
      exact hlast.symm
    rw [hl]
    obtain ⟨h1, h2⟩ := buildAndroidArch_happy_includes a s
      (include_beq_valid_arch (hvalid a (by simp)))
    rcases hb : buildAndroidArch happyEnv ["dist", "android"] a s with ⟨r, s1⟩
    rw [hb] at h1 h2
    simp only at h1 h2
    subst h1
    simp [androidArchLoop, hb, h2]
  | a :: b :: rest, lastA, hlast, hvalid, s => by
    have hlast' : (b :: rest).getLast? = some lastA := by
      simpa [List.getLast?_cons_cons] using hlast
    obtain ⟨h1, h2⟩ := buildAndroidArch_happy_includes a s
      (include_beq_valid_arch (hvalid a (by simp)))
    rcases hb : buildAndroidArch happyEnv ["dist", "android"] a s with ⟨r, s1⟩
    rw [hb] at h1 h2
    simp only at h1 h2
    subst h1
    have ih := androidArchLoop_last_include (b :: rest) lastA hlast'
      (fun x hx => hvalid x (by simp [hx])) s1
    simpa [androidArchLoop, hb] using ih

/-- `withDir` around the Android loop: same result, and the restored
working directory does not disturb the include provenance. -/
theorem withDirM_androidLoop_last_include (dir : Path) (archs : List String)
    (lastA : String) (hlast : archs.getLast? = some lastA)
    (hvalid : ∀ a ∈ archs, androidValidArchs.contains a = true) (s : St) :
    (withDirM dir (androidArchLoop happyEnv ["dist", "android"] archs) s).1 =
      .ok () ∧
    lookupIncl
      (withDirM dir (androidArchLoop happyEnv ["dist", "android"] archs) s).2.includes
      ["dist", "android", "include"] =
      some (installPathAndroid lastA ++ ["include"]) := by
  obtain ⟨h1, h2⟩ :=
    androidArchLoop_last_include archs lastA hlast hvalid { s with cwd := dir }
  rcases hb : androidArchLoop happyEnv ["dist", "android"] archs
    { s with cwd := dir } with ⟨r, s1⟩
  rw [hb] at h1 h2
  simp only at h1 h2
  subst h1
  simp [withDirM, hb, h2]

/-- An `M Unit` computation that always succeeds and never touches the
include-provenance map. -/
def PreservesIncl (m : M Unit) : Prop :=
  ∀ s : St, (m s).1 = .ok () ∧ (m s).2.includes = s.includes

/-- Sequencing two include-preserving computations preserves includes. -/
theorem preservesIncl_seq {x y : M Unit}
    (hx : PreservesIncl x) (hy : PreservesIncl y) :
    PreservesIncl (mBind x (fun _ => y)) := by
  intro s
  obtain ⟨h1, h2⟩ := hx s
  rcases hb : x s with ⟨r, s1⟩
  rw [hb] at h1 h2
  simp only at h1 h2
  subst h1
  obtain ⟨k1, k2⟩ := hy s1
  simp only [mBind_apply, hb]
  exact ⟨k1, k2.trans h2⟩

/-- Removing a staged file touches only the filesystem. -/
theorem preservesIncl_runRm (p : Path) : PreservesIncl (runRm p) := by
  intro s
  simp [runRm]

/-- A successful `lipo` touches only the filesystem. -/
theorem preservesIncl_runLipo_happy (ins : List String) (out : Path) :
    PreservesIncl (runLipo happyEnv ins out) := by
  intro s
  simp [runLipo, happyEnv]

/-- Staged-file cleanup after a merge preserves the include provenance. -/
theorem preservesIncl_lipoCleanupLoop (dp : Path) (lib : String) :
    ∀ archs : List String, PreservesIncl (lipoCleanupLoop dp lib archs)
  | [] => by intro s; simp [lipoCleanupLoop]
  | a :: rest =>
    preservesIncl_seq (preservesIncl_runRm _)
      (preservesIncl_lipoCleanupLoop dp lib rest)

/-- The whole iPhoneOS merge loop preserves the include provenance. -/
theorem preservesIncl_iphoneosMergeLoop (dp : Path) (archs : List String) :
    ∀ libs : List String,
      PreservesIncl (iphoneosMergeLoop happyEnv dp archs libs)
  | [] => by intro s; simp [iphoneosMergeLoop]
  | lib :: rest => by
    have h := preservesIncl_seq
      (preservesIncl_runLipo_happy
        [String.intercalate " "
          (archs.map (fun arch => pathToString (dp ++ [lib ++ "." ++ arch])))]
        (dp ++ [lib]))
      (preservesIncl_seq (preservesIncl_lipoCleanupLoop dp lib archs)
        (preservesIncl_iphoneosMergeLoop dp archs rest))
    exact h

/-- One iPhoneOS architecture body in the happy environment, from an
arbitrary state: it succeeds, and afterwards the platform `include/`
directory is the one copied from THIS architecture's install tree (in both
the single-architecture and the staged multi-architecture branch). -/
theorem buildIphoneosArch_happy_includes (archs : List String)
    (arch : String) (s : St) :
    (buildIphoneosArch happyEnv ["dist", "iphoneos"] archs arch s).1 = .ok () ∧
    lookupIncl
      (buildIphoneosArch happyEnv ["dist", "iphoneos"] archs arch s).2.includes
      ["dist", "iphoneos", "include"] =
      some (installPathIphoneos arch ++ ["include"]) := by
  cases hm : decide (1 < archs.length) with
  | false =>
    simp [buildIphoneosArch, copyIosLibs, iosLibs, happyEnv,
      installPathIphoneos, iosFlags, hm]
  | true =>
    simp [buildIphoneosArch, copyIosLibs, iosLibs, happyEnv,
      installPathIphoneos, iosFlags, hm]

set_option maxHeartbeats 2000000 in
/-- The iPhoneOS per-architecture loop in the happy environment succeeds
and leaves the dist `include/` directory equal to the LAST architecture's
headers, whatever state it starts from. -/
theorem iphoneosArchLoop_last_include (archs : List String) :
    ∀ (rest : List String) (lastA : String), rest.getLast? = some lastA →
    ∀ s : St,
    (iphoneosArchLoop happyEnv ["dist", "iphoneos"] archs rest s).1 = .ok () ∧
    lookupIncl
      (iphoneosArchLoop happyEnv ["dist", "iphoneos"] archs rest s).2.includes
      ["dist", "iphoneos", "include"] =
      some (installPathIphoneos lastA ++ ["include"])
  | [], lastA, hlast, s => by simp at hlast
  | [a], lastA, hlast, s => by
    have hl : lastA = a := by
      simp [List.getLast?] at hlast
      exact hlast.symm
    rw [hl]
    obtain ⟨h1, h2⟩ := buildIphoneosArch_happy_includes archs a s
    rcases hb : buildIphoneosArch happyEnv ["dist", "iphoneos"] archs a s
      with ⟨r, s1⟩
    rw [hb] at h1 h2
    simp only at h1 h2
    subst h1
    simp [iphoneosArchLoop, hb, h2]
  | a :: b :: rest', lastA, hlast, s => by
    have hlast' : (b :: rest').getLast? = some lastA := by
      simpa [List.getLast?_cons_cons] using hlast
    obtain ⟨h1, h2⟩ := buildIphoneosArch_happy_includes archs a s
    rcases hb : buildIphoneosArch happyEnv ["dist", "iphoneos"] archs a s
      with ⟨r, s1⟩
    rw [hb] at h1 h2
    simp only at h1 h2
    subst h1
    have ih := iphoneosArchLoop_last_include archs (b :: rest') lastA hlast' s1
    simpa [iphoneosArchLoop, hb] using ih

/-- The `withDir` callback of `buildForIosIphoneos` (per-architecture loop,
then conditional merge) in the happy environment: succeeds and leaves the
include directory owned by the last architecture — the merge loop does not
touch it. -/
theorem iphoneosBuildAndMerge_last_include (archs : List String)
    (lastA : String) (hlast : archs.getLast? = some lastA) (s : St) :
    (iphoneosBuildAndMerge happyEnv ["dist", "iphoneos"] archs s).1 = .ok () ∧
    lookupIncl
      (iphoneosBuildAndMerge happyEnv ["dist", "iphoneos"] archs s).2.includes
      ["dist", "iphoneos", "include"] =
      some (installPathIphoneos lastA ++ ["include"]) := by
  obtain ⟨h1, h2⟩ := iphoneosArchLoop_last_include archs archs lastA hlast s
  rcases hb : iphoneosArchLoop happyEnv ["dist", "iphoneos"] archs archs s
    with ⟨r, s1⟩
  rw [hb] at h1 h2
  simp only at h1 h2
  subst h1
  by_cases hlen : 1 < archs.length
  · obtain ⟨m1, m2⟩ :=
      preservesIncl_iphoneosMergeLoop ["dist", "iphoneos"] archs iosLibs s1
    simp [iphoneosBuildAndMerge, hb, hlen, m1, m2, h2]
  · simp [iphoneosBuildAndMerge, hb, hlen, h2]

/-- `withDir` around the iPhoneOS build-and-merge callback. -/
theorem withDirM_iphoneos_last_include (dir : Path) (archs : List String)
    (lastA : String) (hlast : archs.getLast? = some lastA) (s : St) :
    (withDirM dir (iphoneosBuildAndMerge happyEnv ["dist", "iphoneos"] archs)
      s).1 = .ok () ∧
    lookupIncl
      (withDirM dir (iphoneosBuildAndMerge happyEnv ["dist", "iphoneos"] archs)
        s).2.includes
      ["dist", "iphoneos", "include"] =
      some (installPathIphoneos lastA ++ ["include"]) := by
  obtain ⟨h1, h2⟩ :=
    iphoneosBuildAndMerge_last_include archs lastA hlast { s with cwd := dir }
  rcases hb : iphoneosBuildAndMerge happyEnv ["dist", "iphoneos"] archs
    { s with cwd := dir } with ⟨r, s1⟩
  rw [hb] at h1 h2
  simp only at h1 h2
  subst h1
  simp [withDirM, hb, h2]

/-- Successful validation means every entry is a valid architecture. -/
theorem validateAndroidArchs_ok_mem :
    ∀ {l : List String}, validateAndroidArchs l = .ok () →
    ∀ a ∈ l, androidValidArchs.contains a = true
  | [], _, a, ha => by cases ha
  | c :: rest, h, a, ha => by
    cases hc : androidValidArchs.contains c with
    | false =>
      rw [validateAndroidArchs, hc] at h
      simp at h
    | true =>
      rw [validateAndroidArchs, hc] at h
      simp only [if_true] at h
      rcases List.mem_cons.mp ha with rfl | hmem
      · exact hc
      · exact validateAndroidArchs_ok_mem h a hmem

set_option maxHeartbeats 2000000 in
/-- C6: for a platform run over an ordered architecture list (Android and
iPhoneOS, in the happy environment, started from `stStart`), the platform's
`include/` directory in the output tree is wholesale replaced by each
architecture's headers in turn — each per-architecture body first removes
`<dist>/<platform>/include` and then copies its own install tree's headers
— so after the run it equals the headers of the LAST architecture in matrix
order (last-write-wins).  The provenance map records which install tree the
dist include directory was last copied from. -/
theorem headers_reflect_last_architecture (archsStr : String)
    (archList : List String) (lastA : String)
    (hne : archsStr ≠ "")
    (hsplit : jsSplit ',' archsStr = archList)
    (hvalid : validateAndroidArchs archList = .ok ())
    (hlast : archList.getLast? = some lastA) :
    (buildForAndroid happyEnv tarPath340 (mkOpts .android true archsStr "" "")
      stStart).1 = .ok () ∧
    lookupIncl
      (buildForAndroid happyEnv tarPath340 (mkOpts .android true archsStr "" "")
        stStart).2.includes
      ["dist", "android", "include"] =
      some (installPathAndroid lastA ++ ["include"]) ∧
    (buildForIosIphoneos happyEnv tarPath340
      (mkOpts .iphoneos true "" archsStr "") stStart).1 = .ok () ∧
    lookupIncl
      (buildForIosIphoneos happyEnv tarPath340
        (mkOpts .iphoneos true "" archsStr "") stStart).2.includes
      ["dist", "iphoneos", "include"] =
      some (installPathIphoneos lastA ++ ["include"]) := by
  have hmem := validateAndroidArchs_ok_mem hvalid
  simp only [jsSplit] at hsplit
  refine ⟨?_, ?_, ?_, ?_⟩
  · simp [fsContains, buildForAndroid, toolchainHostDirs, mkOpts, stStart,
      tarPath340, downloadPathFor, srcDirAndroid, toolchainPrebuilt, hsplit,
      hvalid]
    exact (withDirM_androidLoop_last_include _ archList lastA hlast hmem _).1
  · simp [fsContains, buildForAndroid, toolchainHostDirs, mkOpts, stStart,
      tarPath340, downloadPathFor, srcDirAndroid, toolchainPrebuilt, hsplit,
      hvalid]
    exact (withDirM_androidLoop_last_include _ archList lastA hlast hmem _).2
  · simp [fsContains, buildForIosIphoneos, mkOpts, stStart, tarPath340,
      downloadPathFor, srcDirIphoneos, toolchainPrebuilt, hsplit, hne]
    exact (withDirM_iphoneos_last_include _ archList lastA hlast _).1
  · simp [fsContains, buildForIosIphoneos, mkOpts, stStart, tarPath340,
      downloadPathFor, srcDirIphoneos, toolchainPrebuilt, hsplit, hne]
    exact (withDirM_iphoneos_last_include _ archList lastA hlast _).2

/-- Witness for C6 at the spec's own scenario `arm64,x86_64`: the include
directory comes from the `x86_64` (last) architecture for both platforms. -/
theorem headers_reflect_last_architecture_witness :
    (buildForAndroid happyEnv tarPath340
      (mkOpts .android true "arm64,x86_64" "" "") stStart).1 = .ok () ∧
    lookupIncl
      (buildForAndroid happyEnv tarPath340
        (mkOpts .android true "arm64,x86_64" "" "") stStart).2.includes
      ["dist", "android", "include"] =
      some (installPathAndroid "x86_64" ++ ["include"]) ∧
    (buildForIosIphoneos happyEnv tarPath340
      (mkOpts .iphoneos true "" "arm64,x86_64" "") stStart).1 = .ok () ∧
    lookupIncl
      (buildForIosIphoneos happyEnv tarPath340
        (mkOpts .iphoneos true "" "arm64,x86_64" "") stStart).2.includes
      ["dist", "iphoneos", "include"] =
      some (installPathIphoneos "x86_64" ++ ["include"]) :=
  headers_reflect_last_architecture "arm64,x86_64" ["arm64", "x86_64"]
    "x86_64" (by decide) (by decide) (by rfl) (by decide)

end OpensslCross
